import Mathlib

/-!
Shallow embedding of the forecasting-prototype backend
(src/backend/forecasting.py and src/backend/main.py) together with
theorems settling the specification claims about it.

Conventions of the embedding:
* a pandas DataFrame of observations is a list of rows (structure Row);
  presence of the optional capacity column is threaded as an explicit
  boolean flag where the source tests column membership;
* timestamps are modelled abstractly: a parseable raw string denoting the
  instant t is TS.raw t, an already-parsed datetime is TS.parsed t, an
  unparseable string is TS.bad s; pd.to_datetime is the partial function
  parseTS;
* machine floats are modelled by exact rationals, except where the source
  can produce a non-finite float: the WAPE division is modelled by FVal
  (finite, infinite or NaN) with IEEE division behaviour for a
  nonnegative numerator;
* mutation of a caller-owned DataFrame is modelled by returning the state
  of the caller frame after the call as an explicit component;
* the external StatsForecast library calls (cross_validation, forecast)
  are parameters of the embedded functions; their fold-generation
  behaviour, where a claim needs it, is modelled from the spec and marked
  as such in the doc comment.
-/

/-- A timestamp cell: a parseable raw string denoting instant t, an already
parsed datetime with instant t, or an unparseable string. -/
inductive TS where
  | raw (t : Int)
  | parsed (t : Int)
  | bad (s : String)
deriving DecidableEq, Repr

/-- Models pd.to_datetime on one cell: parseable cells become parsed
datetimes, unparseable cells raise (none). -/
def parseTS : TS → Option TS
  | TS.raw t => some (TS.parsed t)
  | TS.parsed t => some (TS.parsed t)
  | TS.bad _ => none

/-- Instant denoted by a timestamp cell (used only for sorting, after
parsing has succeeded; bad cells never reach the sort). -/
def TS.instant : TS → Int
  | TS.raw t => t
  | TS.parsed t => t
  | TS.bad _ => 0

/-- One row of the uploaded long-format dataset: columns series_id,
timestamp, y (nullable target) and the optional capacity value. -/
structure Row where
  series_id : String
  timestamp : TS
  y : Option ℚ
  capacity : Option ℚ
deriving DecidableEq, Repr

/-- Lexicographic strict order on character lists, code point by code
point: the comparison Python and pandas use on identifier strings. -/
def charListLt : List Char → List Char → Bool
  | [], [] => false
  | [], _ :: _ => true
  | _ :: _, [] => false
  | a :: as, b :: bs => if a < b then true else if b < a then false else charListLt as bs

/-- Lexicographic strict order on identifier strings. -/
def strLt (a b : String) : Bool := charListLt a.data b.data

/-- Sort key of df.sort_values applied to the two columns unique_id, ds. -/
def rowLE (a b : Row) : Bool :=
  if a.series_id = b.series_id then a.timestamp.instant ≤ b.timestamp.instant
  else strLt a.series_id b.series_id

/-- Insert into a sorted list, keeping earlier elements on ties (stable). -/
def insertRow (r : Row) : List Row → List Row
  | [] => [r]
  | x :: xs => if rowLE x r then x :: insertRow r xs else r :: x :: xs

/-- Stable sort by (unique_id, ds), modelling df.sort_values at
forecasting.py line 68. -/
def sortRows : List Row → List Row
  | [] => []
  | x :: xs => insertRow x (sortRows xs)

/-- Models pd.to_datetime over the whole timestamp column (forecasting.py
lines 36 and 64): succeeds with every cell parsed, or raises (none) if any
cell is unparseable. -/
def parseAllTimestamps : List Row → Option (List Row)
  | [] => some []
  | r :: rs =>
    match parseTS r.timestamp with
    | none => none
    | some t =>
      match parseAllTimestamps rs with
      | none => none
      | some rs2 => some ({ r with timestamp := t } :: rs2)

/-- Number of rows of a given series, modelling groupby(series).size(). -/
def countSeries (df : List Row) (sid : String) : Nat :=
  df.countP (fun r => r.series_id == sid)

/-- Embeds ForecastingEngine.prepare_data (forecasting.py lines 60-75):
parse timestamps, sort by (unique_id, ds), keep only the rows whose series
has at least 30 observations. The source computes the set of series with at
least 30 rows via groupby and keeps the rows whose series is in that set,
which is the same predicate as the per-row count test used here. The source
copies the frame first, so the caller frame is untouched; failure of
pd.to_datetime raises. -/
def prepare_data (df : List Row) : Except String (List Row) :=
  match parseAllTimestamps df with
  | none => Except.error "MalformedTimestamp"
  | some df1 =>
    let df2 := sortRows df1
    Except.ok (df2.filter (fun r => 30 ≤ countSeries df2 r.series_id))

/-- State of the caller frame after prepare_data: line 63 does df.copy(),
so every later mutation acts on the copy and the caller frame is unchanged. -/
def prepare_data_caller (df : List Row) : List Row := df

/-- A data-quality issue reported by validate_data. -/
inductive Issue where
  | nullY (n : Nat)
  | badTimestamp
deriving DecidableEq, Repr

/-- Validation report of validate_data (series statistics and the column
listing of the source are plain projections of the frame and are not needed
by any claim, so they are not repeated here). -/
structure ValidationResult where
  is_valid : Bool
  issues : List Issue
  n_observations : Nat
deriving DecidableEq, Repr

/-- Embeds ForecastingEngine.validate_data (forecasting.py lines 17-58)
together with its effect on the caller frame: line 36 assigns the parsed
timestamp column back into the input frame without copying it, so on
parseable data the caller frame is mutated in place; on unparseable data
the assignment does not happen and an issue is recorded. -/
def validate_data (df : List Row) : ValidationResult × List Row :=
  let null_count := df.countP (fun r => r.y.isNone)
  let issues0 : List Issue := if 0 < null_count then [Issue.nullY null_count] else []
  match parseAllTimestamps df with
  | some df2 =>
    ({ is_valid := issues0.isEmpty, issues := issues0, n_observations := df.length }, df2)
  | none =>
    let issues1 := issues0 ++ [Issue.badTimestamp]
    ({ is_valid := issues1.isEmpty, issues := issues1, n_observations := df.length }, df)

/-- One row of the cross-validation result frame returned by the external
StatsForecast.cross_validation call: fixed columns ds, unique_id, y, cutoff
plus one prediction column per model (none models a NaN cell). -/
structure CVRow where
  unique_id : String
  ds : Int
  cutoff : Int
  y : Option ℚ
  preds : List (String × Option ℚ)
deriving DecidableEq, Repr

/-- The cross-validation result frame: the model columns (the frame columns
other than ds, unique_id, y, cutoff, in column order) and the rows. -/
structure CVResults where
  modelCols : List String
  rows : List CVRow
deriving DecidableEq, Repr

/-- Value of a prediction column in one cv row (none models NaN, also when
the column is absent from the row). -/
def getPred (r : CVRow) (m : String) : Option ℚ :=
  (r.preds.lookup m).join

/-- A float64 result that may be non-finite: the WAPE division can produce
plus infinity (positive numerator, zero denominator) or NaN (zero numerator,
zero denominator). -/
inductive FVal where
  | fin (q : ℚ)
  | inf
  | nan
deriving DecidableEq, Repr, BEq

/-- IEEE float division for a nonnegative numerator (both arguments of the
WAPE division are sums of absolute values, hence nonnegative). -/
def floatDiv (num den : ℚ) : FVal :=
  if den = 0 then (if num = 0 then FVal.nan else FVal.inf) else FVal.fin (num / den)

/-- IEEE strict less-than on modelled floats: NaN compares false against
everything, as in the Python min loop. -/
def FVal.lt : FVal → FVal → Bool
  | FVal.fin a, FVal.fin b => decide (a < b)
  | FVal.fin _, FVal.inf => true
  | _, _ => false

/-- Finite part of a modelled float (0 for non-finite values). -/
def FVal.toQ : FVal → ℚ
  | FVal.fin q => q
  | _ => 0

/-- The value NaN is not nonnegative under IEEE comparison. -/
def FVal.nonneg : FVal → Prop
  | FVal.fin q => 0 ≤ q
  | FVal.inf => True
  | FVal.nan => False

/-- Per-model score entry stored in the metrics dictionary: a wape value
and, only when the dataset has a capacity column, a capacity_breach_rate. -/
structure ModelMetrics where
  wape : FVal
  capacity_breach_rate : Option ℚ
deriving DecidableEq, Repr

/-- Rows where both the prediction column of the model and y are non-null:
the mask of forecasting.py line 135. -/
def maskRows (cv : CVResults) (m : String) : List CVRow :=
  cv.rows.filter (fun r => (getPred r m).isSome && r.y.isSome)

/-- Actual value of a masked row (the mask guarantees presence). -/
def rowActual (r : CVRow) : ℚ := r.y.getD 0

/-- Predicted value of a masked row for one model. -/
def rowPred (r : CVRow) (m : String) : ℚ := (getPred r m).getD 0

/-- WAPE of one model over the masked rows, forecasting.py line 142:
np.sum(np.abs(actual - predicted)) / np.sum(np.abs(actual)). -/
def modelWape (cv : CVResults) (m : String) : FVal :=
  let rows := maskRows cv m
  floatDiv ((rows.map (fun r => |rowActual r - rowPred r m|)).sum)
           ((rows.map (fun r => |rowActual r|)).sum)

/-- Embeds ForecastingEngine._calculate_metrics (forecasting.py lines
118-152) as the insertion-ordered association list that models the Python
dict: each model column is skipped when its prediction column is all-NaN or
the joint mask with y is empty, otherwise it is scored with its WAPE; when
the original frame has a capacity column the capacity_breach_rate is the
hardcoded placeholder 0.0 of line 149, otherwise the key is absent. -/
def calculate_metrics (cv : CVResults) (has_capacity : Bool) :
    List (String × ModelMetrics) :=
  cv.modelCols.filterMap (fun m =>
    if cv.rows.countP (fun r => (getPred r m).isSome) = 0 then none
    else if (maskRows cv m).length = 0 then none
    else some (m, { wape := modelWape cv m,
                    capacity_breach_rate := if has_capacity then some 0 else none }))

/-- Python min over a list with a key function: keeps the current best and
replaces it only when the key of the new element is strictly smaller, so the
first element attaining the minimum wins; an empty input raises (none). -/
def pyMinBy {α : Type} (key : α → FVal) : List α → Option α
  | [] => none
  | x :: xs => some (xs.foldl (fun best y => if (key y).lt (key best) then y else best) x)

/-- The fixed model registry of ForecastingEngine (forecasting.py lines
11-15); a model object is represented by its alias string. -/
def models_map : List (String × String) :=
  [("AutoARIMA", "AutoARIMA"), ("ETS", "ETS"), ("Theta", "Theta")]

/-- Model selection of forecasting.py lines 88 and 162: the requested names
found in the registry, in request order; unknown names are silently skipped. -/
def select_models (models : List String) : List String :=
  models.filterMap (fun m => models_map.lookup m)

/-- Run-level failures of the backtest path: the ValueError of
forecasting.py line 85, the pd.to_datetime failure inside prepare_data, and
the ValueError raised by min over an empty metrics dict in main.py line 315
(the NoScorableModel failure of the spec). -/
inductive BacktestError where
  | malformedTimestamp
  | noValidSeries
  | noScorableModel
deriving DecidableEq, Repr

/-- Embeds ForecastingEngine.run_backtest (forecasting.py lines 77-116) up
to its metrics result. The external StatsForecast.cross_validation call of
line 98 is a parameter, applied to the prepared frame and the selected
models exactly as the source does. -/
def run_backtest (cross_validation : List Row → List String → CVResults)
    (df : List Row) (has_capacity : Bool) (models : List String) :
    Except BacktestError (List (String × ModelMetrics)) :=
  match prepare_data df with
  | Except.error _ => Except.error BacktestError.malformedTimestamp
  | Except.ok clean =>
    if clean.length = 0 then Except.error BacktestError.noValidSeries
    else Except.ok (calculate_metrics (cross_validation clean (select_models models)) has_capacity)

/-- Embeds the /models/backtest endpoint logic of main.py lines 302-343 up
to winner selection: run the backtest, then pick the best model with
min(metrics.items(), key x to wape of x), which raises when the metrics
dict is empty. -/
def backtest_endpoint (cross_validation : List Row → List String → CVResults)
    (df : List Row) (has_capacity : Bool) (models : List String) :
    Except BacktestError (String × ModelMetrics) :=
  match run_backtest cross_validation df has_capacity models with
  | Except.error e => Except.error e
  | Except.ok metrics =>
    match pyMinBy (fun x => x.2.wape) metrics with
    | none => Except.error BacktestError.noScorableModel
    | some best => Except.ok best

/-- One row of the forecast frame returned by StatsForecast.forecast:
unique_id, ds, and one numeric cell per forecast column. -/
structure FRow where
  unique_id : String
  ds : Int
  vals : List (String × ℚ)
deriving DecidableEq, Repr

/-- The forecast frame: its column names and rows. -/
structure Forecasts where
  cols : List String
  rows : List FRow
deriving DecidableEq, Repr

/-- Cell value of a forecast row in a named column (0 when absent). -/
def getColVal (r : FRow) (c : String) : ℚ :=
  (r.vals.lookup c).getD 0

/-- Embeds ForecastingEngine.generate_forecast (forecasting.py lines
154-174): prepare the data, select the requested models that exist in the
registry, and apply the external StatsForecast.forecast call to the
prepared frame; there is no emptiness guard on this path. -/
def generate_forecast (sf_forecast : List Row → List String → Forecasts)
    (df : List Row) (models : List String) : Except BacktestError Forecasts :=
  match prepare_data df with
  | Except.error _ => Except.error BacktestError.malformedTimestamp
  | Except.ok clean => Except.ok (sf_forecast clean (select_models models))

/-- An alert record appended by check_capacity_alerts (the message string
is a rendering of the numeric fields and is not repeated here). -/
structure Alert where
  series_id : String
  date : Int
  predicted_demand : ℚ
  threshold : ℚ
deriving DecidableEq, Repr

/-- Embeds ForecastingEngine.check_capacity_alerts (forecasting.py lines
176-196): when the frame has an AutoARIMA-hi-90 column, append one alert
per row whose value in that column strictly exceeds the scalar threshold
argument; the capacity frame argument is never read. -/
def check_capacity_alerts (forecasts : Forecasts)
    (capacity_df : List (String × ℚ)) (threshold : ℚ) : List Alert :=
  let alerts : List Alert := []
  if "AutoARIMA-hi-90" ∈ forecasts.cols then
    let high_demand := forecasts.rows.filter
      (fun r => threshold < getColVal r "AutoARIMA-hi-90")
    high_demand.foldl (fun acc row =>
      acc ++ [{ series_id := row.unique_id, date := row.ds,
                predicted_demand := getColVal row "AutoARIMA-hi-90",
                threshold := threshold }]) alerts
  else alerts

/-- Follows the words of the spec (section 4.5), for comparison with the
code path of main.py lines 314-316: minimum WAPE wins, ties are broken by
the lower capacity_breach_rate when computed, else by the lexicographically
smallest model identifier. -/
def spec_better (y b : String × ModelMetrics) : Bool :=
  FVal.lt y.2.wape b.2.wape ||
  (y.2.wape == b.2.wape &&
    (match y.2.capacity_breach_rate, b.2.capacity_breach_rate with
     | some cy, some cb =>
       decide (cy < cb) || (cy == cb && strLt y.1 b.1)
     | _, _ => strLt y.1 b.1))

/-- Follows the words of the spec (section 4.5): the selector induced by
the spec_better ordering, kept deterministic by scanning in list order. -/
def spec_select (metrics : List (String × ModelMetrics)) :
    Option (String × ModelMetrics) :=
  match metrics with
  | [] => none
  | x :: xs => some (xs.foldl (fun best y => if spec_better y best then y else best) x)

/-- Follows the words of the spec (section 4.7), for comparison with
check_capacity_alerts: emit an alert for every (series, step) whose
upper-quantile value strictly exceeds the per-series absolute threshold of
that series. -/
def spec_check_alerts (forecasts : Forecasts)
    (capacity : List (String × ℚ)) : List Alert :=
  forecasts.rows.filterMap (fun r =>
    match capacity.lookup r.unique_id with
    | some cap =>
      if cap < getColVal r "AutoARIMA-hi-90" then
        some { series_id := r.unique_id, date := r.ds,
               predicted_demand := getColVal r "AutoARIMA-hi-90", threshold := cap }
      else none
    | none => none)

/-- The WAPE of the spec (section 4.4) written as a double sum grouped by
series identifier: a single global ratio whose numerator and denominator
are sums over the per-series groups of scored tuples. -/
def spec_global_wape (cv : CVResults) (m : String) : FVal :=
  let rows := maskRows cv m
  let ids := (rows.map CVRow.unique_id).dedup
  floatDiv
    ((ids.map (fun sid =>
      (((rows.filter (fun r => r.unique_id == sid)).map
        (fun r => |rowActual r - rowPred r m|)).sum))).sum)
    ((ids.map (fun sid =>
      (((rows.filter (fun r => r.unique_id == sid)).map
        (fun r => |rowActual r|)).sum))).sum)

/-- The reading the spec rules out (section 4.4): the unweighted average of
the per-series WAPE ratios, using exact division per series. -/
def avg_series_wape (cv : CVResults) (m : String) : ℚ :=
  let rows := maskRows cv m
  let ids := (rows.map CVRow.unique_id).dedup
  (ids.map (fun sid =>
    (((rows.filter (fun r => r.unique_id == sid)).map
      (fun r => |rowActual r - rowPred r m|)).sum) /
    (((rows.filter (fun r => r.unique_id == sid)).map
      (fun r => |rowActual r|)).sum))).sum / (ids.length : ℚ)

/-- Modelled from the spec: the rolling-origin fold cutoffs generated
inside the external StatsForecast.cross_validation call of forecasting.py
line 98, which is not part of this repository. Section 4.3 of the spec:
cutoff_k = L - H - k*S for k = 0 .. N-1, and a fold is skipped, not an
error, when less than the minimum required training length remains. -/
def fold_cutoffs (L H S N min_train : Nat) : List Int :=
  ((List.range N).map (fun (k : Nat) => (L : Int) - (H : Int) - (k : Int) * (S : Int))).filter
    (fun c => decide ((min_train : Int) ≤ c))

/-- Modelled from the spec: the train/test slices of each generated fold;
the training slice is all history up to the cutoff, the test slice is the
next H points. -/
def make_folds (series : List ℚ) (H S N min_train : Nat) :
    List (List ℚ × List ℚ) :=
  (fold_cutoffs series.length H S N min_train).map
    (fun c => (series.take c.toNat, (series.drop c.toNat).take H))

/-- Two scored models with equal WAPE and equal computed breach rate, with
the lexicographically larger identifier first in insertion order. -/
def metrics_tie : List (String × ModelMetrics) :=
  [("Theta", { wape := FVal.fin 1, capacity_breach_rate := some 0 }),
   ("AutoARIMA", { wape := FVal.fin 1, capacity_breach_rate := some 0 })]

/-- A cv frame with one scored tuple whose actual and predicted values are
both 0: the WAPE division is 0 / 0. -/
def cv_zero_pair : CVResults :=
  { modelCols := ["M"],
    rows := [{ unique_id := "A", ds := 0, cutoff := 0, y := some 0,
               preds := [("M", some 0)] }] }

/-- A cv frame from a dataset with capacity 100 where the actual value 150
breaches capacity and the predicted upper quantile 90 does not: a missed
breach, so the breach fraction of the spec is 1. -/
def cv_missed_breach : CVResults :=
  { modelCols := ["AutoARIMA"],
    rows := [{ unique_id := "A", ds := 0, cutoff := 0, y := some 150,
               preds := [("AutoARIMA", some 90)] }] }

/-- A cv frame with two series on which the global WAPE ratio, 1/11, and
the average of per-series ratios, 1/2, differ. -/
def cv_two_series : CVResults :=
  { modelCols := ["M"],
    rows := [{ unique_id := "A", ds := 0, cutoff := 0, y := some 1,
               preds := [("M", some 2)] },
             { unique_id := "B", ds := 0, cutoff := 0, y := some 10,
               preds := [("M", some 10)] }] }

/-- A forecast frame with a single future step whose upper-90 value is 120. -/
def forecasts_120 : Forecasts :=
  { cols := ["AutoARIMA-hi-90"],
    rows := [{ unique_id := "A", ds := 0, vals := [("AutoARIMA-hi-90", 120)] }] }

/-- A per-series capacity table giving series A the capacity 200. -/
def capacity_200 : List (String × ℚ) := [("A", 200)]

/-- A one-row frame whose timestamp is a parseable raw string. -/
def df_raw_ts : List Row :=
  [{ series_id := "A", timestamp := TS.raw 0, y := some 1, capacity := none }]

/-- A frame with 30 observations of series A followed by one observation of
series B: series A passes the minimum-length filter, series B does not. -/
def df_mixed : List Row :=
  (List.range 30).map (fun i =>
    { series_id := "A", timestamp := TS.raw (i : Int), y := some 1, capacity := none })
  ++ [{ series_id := "B", timestamp := TS.raw 100, y := some 1, capacity := none }]

/-- The prepared form of df_mixed: the 30 observations of series A, parsed
and sorted, with series B dropped. -/
def clean_mixed : List Row :=
  (List.range 30).map (fun i =>
    { series_id := "A", timestamp := TS.parsed (i : Int), y := some 1, capacity := none })

instance {ε α : Type} [DecidableEq ε] [DecidableEq α] : DecidableEq (Except ε α) :=
  fun x y =>
  match x, y with
  | Except.ok a, Except.ok b =>
    if h : a = b then isTrue (by rw [h]) else isFalse (fun hh => by cases hh; exact h rfl)
  | Except.error a, Except.error b =>
    if h : a = b then isTrue (by rw [h]) else isFalse (fun hh => by cases hh; exact h rfl)
  | Except.ok _, Except.error _ => isFalse (fun hh => by cases hh)
  | Except.error _, Except.ok _ => isFalse (fun hh => by cases hh)

theorem foldl_append_map {α β : Type} (f : α → β) :
    ∀ (l : List α) (acc : List β),
      l.foldl (fun a r => a ++ [f r]) acc = acc ++ l.map f
  | [], acc => by simp
  | x :: xs, acc => by
    simp [List.foldl_cons, foldl_append_map f xs]

theorem sum_map_nonneg {α : Type} (l : List α) (f : α → ℚ)
    (h : ∀ x ∈ l, 0 ≤ f x) : 0 ≤ (l.map f).sum :=
  List.sum_nonneg (by
    intro x hx
    obtain ⟨a, ha, rfl⟩ := List.mem_map.1 hx
    exact h a ha)

theorem sum_map_eq_zero_iff {α : Type} (l : List α) (f : α → ℚ)
    (h : ∀ x ∈ l, 0 ≤ f x) : (l.map f).sum = 0 ↔ ∀ x ∈ l, f x = 0 := by
  induction l with
  | nil => simp
  | cons a as ih =>
    have ha : 0 ≤ f a := h a (by simp)
    have has : ∀ x ∈ as, 0 ≤ f x := fun x hx => h x (by simp [hx])
    have hs : 0 ≤ (as.map f).sum := sum_map_nonneg as f has
    simp only [List.map_cons, List.sum_cons, List.mem_cons]
    constructor
    · intro h0
      have hfa : f a = 0 := by linarith [le_antisymm (by linarith) ha]
      have hrest : (as.map f).sum = 0 := by linarith
      intro x hx
      rcases hx with rfl | hx
      · exact hfa
      · exact (ih has).1 hrest x hx
    · intro hz
      rw [hz a (Or.inl rfl), (ih has).2 (fun x hx => hz x (Or.inr hx))]
      simp

theorem sum_map_filter_split {α : Type} (l : List α) (f : α → ℚ) (p : α → Bool) :
    (l.map f).sum =
      ((l.filter p).map f).sum + ((l.filter (fun x => !(p x))).map f).sum := by
  induction l with
  | nil => simp
  | cons a as ih =>
    cases hpa : p a <;> simp [List.filter_cons, hpa, ih] <;> ring

theorem sum_fibers {α : Type} (f : α → ℚ) (key : α → String) :
    ∀ (keys : List String) (l : List α), keys.Nodup → (∀ x ∈ l, key x ∈ keys) →
      (l.map f).sum =
        (keys.map (fun k => ((l.filter (fun x => key x == k)).map f).sum)).sum := by
  intro keys
  induction keys with
  | nil =>
    intro l _ hcov
    have : l = [] := List.eq_nil_iff_forall_not_mem.2 (fun x hx => by simpa using hcov x hx)
    simp [this]
  | cons k ks ih =>
    intro l hnd hcov
    have hk : k ∉ ks := (List.nodup_cons.1 hnd).1
    have hnd2 : ks.Nodup := (List.nodup_cons.1 hnd).2
    have hsplit := sum_map_filter_split l f (fun x => key x == k)
    have hcov2 : ∀ x ∈ l.filter (fun x => !(key x == k)), key x ∈ ks := by
      intro x hx
      have hx1 := List.mem_filter.1 hx
      have hmem := hcov x hx1.1
      have hne : ¬ (key x == k) = true := by simpa using hx1.2
      rcases List.mem_cons.1 hmem with hkk | hks
      · exact absurd (by simp [hkk]) hne
      · exact hks
    have hrec := ih (l.filter (fun x => !(key x == k))) hnd2 hcov2
    have hfib : ∀ j ∈ ks,
        (l.filter (fun x => !(key x == k))).filter (fun x => key x == j) =
          l.filter (fun x => key x == j) := by
      intro j hj
      have hjk : j ≠ k := fun h => hk (h ▸ hj)
      rw [List.filter_filter]
      apply List.filter_congr
      intro x _
      by_cases hxj : key x = j
      · simp [hxj, beq_eq_false_iff_ne, hjk]
      · simp [beq_eq_false_iff_ne, hxj]
    calc (l.map f).sum
        = ((l.filter (fun x => key x == k)).map f).sum +
            ((l.filter (fun x => !(key x == k))).map f).sum := hsplit
      _ = ((l.filter (fun x => key x == k)).map f).sum +
            (ks.map (fun j =>
              (((l.filter (fun x => !(key x == k))).filter (fun x => key x == j)).map f).sum)).sum := by
            rw [hrec]
      _ = ((l.filter (fun x => key x == k)).map f).sum +
            (ks.map (fun j => ((l.filter (fun x => key x == j)).map f).sum)).sum := by
            congr 1
            apply congrArg
            apply List.map_congr_left
            intro j hj
            rw [hfib j hj]
      _ = ((k :: ks).map (fun j => ((l.filter (fun x => key x == j)).map f).sum)).sum := by
            simp

theorem parseAll_forall2 :
    ∀ {df df2 : List Row}, parseAllTimestamps df = some df2 →
      List.Forall₂ (fun r r2 => r2.series_id = r.series_id ∧ r2.y = r.y ∧
        r2.capacity = r.capacity ∧ parseTS r.timestamp = some r2.timestamp) df df2 := by
  intro df
  induction df with
  | nil =>
    intro df2 h
    simp [parseAllTimestamps] at h
    subst h
    exact List.Forall₂.nil
  | cons r rs ih =>
    intro df2 h
    simp only [parseAllTimestamps] at h
    cases hts : parseTS r.timestamp with
    | none => rw [hts] at h; cases h
    | some t =>
      rw [hts] at h
      cases hrec : parseAllTimestamps rs with
      | none => rw [hrec] at h; cases h
      | some rs2 =>
        rw [hrec] at h
        cases h
        exact List.Forall₂.cons ⟨rfl, rfl, rfl, hts⟩ (ih hrec)

theorem countSeries_forall2 {l1 l2 : List Row}
    (h : List.Forall₂ (fun r r2 => r2.series_id = r.series_id ∧ r2.y = r.y ∧
      r2.capacity = r.capacity ∧ parseTS r.timestamp = some r2.timestamp) l1 l2)
    (sid : String) : countSeries l2 sid = countSeries l1 sid := by
  induction h with
  | nil => rfl
  | cons hr _ ih =>
    simp only [countSeries, List.countP_cons] at *
    rw [ih, hr.1]

theorem insertRow_perm (r : Row) (l : List Row) : (insertRow r l).Perm (r :: l) := by
  induction l with
  | nil => simp [insertRow]
  | cons x xs ih =>
    simp only [insertRow]
    cases hb : rowLE x r
    · simp
    · simp only [if_pos rfl]
      exact (ih.cons x).trans (List.Perm.swap r x xs)

theorem sortRows_perm (l : List Row) : (sortRows l).Perm l := by
  induction l with
  | nil => simp [sortRows]
  | cons x xs ih =>
    exact (insertRow_perm x (sortRows xs)).trans (ih.cons x)

theorem countSeries_sortRows (l : List Row) (sid : String) :
    countSeries (sortRows l) sid = countSeries l sid :=
  (sortRows_perm l).countP_eq _

theorem prepare_data_mem_count {df clean : List Row}
    (h : prepare_data df = Except.ok clean) :
    ∀ r ∈ clean, 30 ≤ countSeries df r.series_id := by
  intro r hr
  unfold prepare_data at h
  cases hp : parseAllTimestamps df with
  | none => rw [hp] at h; cases h
  | some df1 =>
    rw [hp] at h
    cases h
    have h1 := List.mem_filter.1 hr
    have h2 : 30 ≤ countSeries (sortRows df1) r.series_id := by simpa using h1.2
    rw [countSeries_sortRows, countSeries_forall2 (parseAll_forall2 hp)] at h2
    exact h2

theorem maskRows_countP_pos {cv : CVResults} {m : String}
    (h : maskRows cv m ≠ []) :
    cv.rows.countP (fun r => (getPred r m).isSome) ≠ 0 := by
  obtain ⟨r, hr⟩ := List.exists_mem_of_ne_nil _ h
  have h1 := List.mem_filter.1 hr
  have h2 : (getPred r m).isSome = true := by
    have := h1.2
    simp at this
    exact this.1
  have : 0 < cv.rows.countP (fun r => (getPred r m).isSome) :=
    List.countP_pos_iff.2 ⟨r, h1.1, h2⟩
  omega

theorem calculate_metrics_mem (cv : CVResults) (hc : Bool) (m : String)
    (e : ModelMetrics) :
    (m, e) ∈ calculate_metrics cv hc ↔
      m ∈ cv.modelCols ∧ maskRows cv m ≠ [] ∧
      e = { wape := modelWape cv m,
            capacity_breach_rate := if hc then some 0 else none } := by
  constructor
  · intro h
    obtain ⟨a, ha, hfa⟩ := List.mem_filterMap.1 h
    by_cases h1 : cv.rows.countP (fun r => (getPred r a).isSome) = 0
    · simp [calculate_metrics, h1] at hfa
    · by_cases h2 : (maskRows cv a).length = 0
      · simp [calculate_metrics, h1, h2] at hfa
      · simp only [calculate_metrics, if_neg h1, if_neg h2, Option.some.injEq, Prod.mk.injEq] at hfa
        obtain ⟨ham, he⟩ := hfa
        subst ham
        refine ⟨ha, ?_, he.symm⟩
        intro hnil
        rw [hnil] at h2
        simp at h2
  · rintro ⟨hm, hne, rfl⟩
    apply List.mem_filterMap.2
    refine ⟨m, hm, ?_⟩
    have h1 := maskRows_countP_pos hne
    have h2 : (maskRows cv m).length ≠ 0 := by
      intro h0
      exact hne (List.length_eq_zero.1 h0)
    simp only [calculate_metrics, if_neg h1, if_neg h2]

theorem FVal.lt_fin_iff (a b : ℚ) :
    FVal.lt (FVal.fin a) (FVal.fin b) = true ↔ a < b := by
  simp [FVal.lt]

theorem FVal.toQ_fin (q : ℚ) : FVal.toQ (FVal.fin q) = q := rfl

theorem wape_eq_spec_global (cv : CVResults) (m : String) :
    modelWape cv m = spec_global_wape cv m := by
  simp only [modelWape, spec_global_wape]
  have hnum := sum_fibers (fun r => |rowActual r - rowPred r m|) CVRow.unique_id
    ((maskRows cv m).map CVRow.unique_id).dedup (maskRows cv m)
    (List.nodup_dedup _)
    (fun r hr => List.mem_dedup.2 (List.mem_map_of_mem _ hr))
  have hden := sum_fibers (fun r => |rowActual r|) CVRow.unique_id
    ((maskRows cv m).map CVRow.unique_id).dedup (maskRows cv m)
    (List.nodup_dedup _)
    (fun r hr => List.mem_dedup.2 (List.mem_map_of_mem _ hr))
  rw [hnum, hden]

theorem lookup_models_map (m : String) :
    models_map.lookup m =
      if m ∈ (["AutoARIMA", "ETS", "Theta"] : List String) then some m else none := by
  by_cases h1 : m = "AutoARIMA"
  · simp [models_map, List.lookup, h1]
  · have e1 : (m == "AutoARIMA") = false := beq_eq_false_iff_ne.2 h1
    by_cases h2 : m = "ETS"
    · simp [models_map, List.lookup, e1, h1, h2]
    · have e2 : (m == "ETS") = false := beq_eq_false_iff_ne.2 h2
      by_cases h3 : m = "Theta"
      · simp [models_map, List.lookup, e1, e2, h1, h2, h3]
      · have e3 : (m == "Theta") = false := beq_eq_false_iff_ne.2 h3
        simp [models_map, List.lookup, e1, e2, e3, h1, h2, h3]

theorem select_models_eq_filter (names : List String) :
    select_models names =
      names.filter (fun m => decide (m ∈ (["AutoARIMA", "ETS", "Theta"] : List String))) := by
  induction names with
  | nil => rfl
  | cons n ns ih =>
    simp only [select_models, List.filterMap_cons, List.filter_cons] at *
    rw [lookup_models_map]
    by_cases hn : n ∈ (["AutoARIMA", "ETS", "Theta"] : List String)
    · simp [hn, ih]
    · simp [hn, ih]

theorem pyFold_first_min {α : Type} (key : α → FVal) (xs : List α) :
    ∀ (x : α), (∀ z ∈ x :: xs, ∃ c, key z = FVal.fin c) →
      ∃ r l1 l2,
        xs.foldl (fun best y => if (key y).lt (key best) then y else best) x = r ∧
        x :: xs = l1 ++ r :: l2 ∧
        (∀ z ∈ l1, FVal.toQ (key r) < FVal.toQ (key z)) ∧
        (∀ z ∈ x :: xs, FVal.toQ (key r) ≤ FVal.toQ (key z)) := by
  induction xs with
  | nil =>
    intro x _
    refine ⟨x, [], [], rfl, rfl, by simp, ?_⟩
    intro z hz
    rw [List.mem_singleton] at hz
    subst hz
    exact le_refl _
  | cons y ys ih =>
    intro x hfin
    obtain ⟨cx, hcx⟩ := hfin x (by simp)
    obtain ⟨cy, hcy⟩ := hfin y (by simp)
    cases hlt : (key y).lt (key x)
    · -- the current best x is kept
      have hfin2 : ∀ z ∈ x :: ys, ∃ c, key z = FVal.fin c := by
        intro z hz
        rcases List.mem_cons.1 hz with rfl | hz
        · exact ⟨cx, hcx⟩
        · exact hfin z (by simp [hz])
      have hxy : cx ≤ cy := by
        rw [hcx, hcy] at hlt
        have : ¬ (cy < cx) := by simpa [FVal.lt] using hlt
        exact le_of_not_lt this
      obtain ⟨r, l1, l2, hr, hdec, hstrict, hbound⟩ := ih x hfin2
      cases l1 with
      | nil =>
        simp only [List.nil_append] at hdec
        have hrx : r = x := (List.cons.injEq _ _ _ _ ▸ hdec).1.symm
        have hl2 : l2 = ys := (List.cons.injEq _ _ _ _ ▸ hdec).2.symm
        refine ⟨r, [], y :: ys, ?_, ?_, by simp, ?_⟩
        · rw [List.foldl_cons]
          simpa [hlt] using hr
        · simp [hrx]
        · intro z hz
          rcases List.mem_cons.1 hz with rfl | hz
          · exact hbound z (by simp)
          · rcases List.mem_cons.1 hz with rfl | hz
            · rw [hrx, hcx, FVal.toQ_fin, hcy, FVal.toQ_fin]
              exact hxy
            · exact hbound z (by simp [hz])
      | cons a l1x =>
        simp only [List.cons_append, List.cons.injEq] at hdec
        obtain ⟨hax, hys⟩ := hdec
        refine ⟨r, x :: y :: l1x, l2, ?_, ?_, ?_, ?_⟩
        · rw [List.foldl_cons]
          simpa [hlt] using hr
        · simp [hys]
        · intro z hz
          rcases List.mem_cons.1 hz with rfl | hz
          · exact hax ▸ hstrict a (by simp)
          · rcases List.mem_cons.1 hz with rfl | hz
            · have h1 : FVal.toQ (key r) < FVal.toQ (key x) := hax ▸ hstrict a (by simp)
              rw [hcx, FVal.toQ_fin] at h1
              rw [hcy, FVal.toQ_fin]
              exact lt_of_lt_of_le h1 hxy
            · exact hstrict z (by simp [hz])
        · intro z hz
          rcases List.mem_cons.1 hz with rfl | hz
          · exact hbound z (by simp)
          · rcases List.mem_cons.1 hz with rfl | hz
            · have h1 : FVal.toQ (key r) < FVal.toQ (key x) := hax ▸ hstrict a (by simp)
              rw [hcx, FVal.toQ_fin] at h1
              rw [hcy, FVal.toQ_fin]
              exact le_of_lt (lt_of_lt_of_le h1 hxy)
            · exact hbound z (by simp [hz])
    · -- the new element y strictly improves and replaces x
      have hfin2 : ∀ z ∈ y :: ys, ∃ c, key z = FVal.fin c := by
        intro z hz
        exact hfin z (by
          rcases List.mem_cons.1 hz with rfl | hz
          · simp
          · simp [hz])
      have hyx : cy < cx := by
        rw [hcx, hcy] at hlt
        simpa [FVal.lt] using hlt
      obtain ⟨r, l1, l2, hr, hdec, hstrict, hbound⟩ := ih y hfin2
      refine ⟨r, x :: l1, l2, ?_, ?_, ?_, ?_⟩
      · rw [List.foldl_cons]
        simpa [hlt] using hr
      · simp [hdec]
      · intro z hz
        rcases List.mem_cons.1 hz with rfl | hz
        · have h1 : FVal.toQ (key r) ≤ FVal.toQ (key y) := hbound y (by simp)
          rw [hcy, FVal.toQ_fin] at h1
          rw [hcx, FVal.toQ_fin]
          exact lt_of_le_of_lt h1 hyx
        · exact hstrict z hz
      · intro z hz
        rcases List.mem_cons.1 hz with rfl | hz
        · have h1 : FVal.toQ (key r) ≤ FVal.toQ (key y) := hbound y (by simp)
          rw [hcy, FVal.toQ_fin] at h1
          rw [hcx, FVal.toQ_fin]
          exact le_of_lt (lt_of_le_of_lt h1 hyx)
        · exact hbound z hz

/-- C2: for every scored model, the computed WAPE equals the single global
ratio of the sum of absolute errors to the sum of absolute actuals over all
scored (series, fold, step) tuples of that model, written as the double sum
grouped by series, and it is not the average of per-series ratios, from
which it differs on the two-series frame cv_two_series. -/
theorem C2_wape_global_ratio (cv : CVResults) (hc : Bool) (m : String)
    (hmem : m ∈ cv.modelCols) (hmask : maskRows cv m ≠ []) :
    ((m, { wape := spec_global_wape cv m,
           capacity_breach_rate := if hc then some 0 else none }) ∈
        calculate_metrics cv hc) ∧
    (∀ e, (m, e) ∈ calculate_metrics cv hc → e.wape = spec_global_wape cv m) ∧
    modelWape cv_two_series "M" ≠ FVal.fin (avg_series_wape cv_two_series "M") := by
  refine ⟨?_, ?_, ?_⟩
  · exact (calculate_metrics_mem cv hc m _).2 ⟨hmem, hmask, by rw [wape_eq_spec_global]⟩
  · intro e he
    have h := ((calculate_metrics_mem cv hc m e).1 he).2.2
    rw [h, wape_eq_spec_global]
  · have h1 : modelWape cv_two_series "M" = FVal.fin (1 / 11) := by
      norm_num [modelWape, cv_two_series, maskRows, getPred, rowActual, rowPred, floatDiv]
    have hd0 : (["B"] : List String).dedup = ["B"] := by
      rw [List.dedup_cons_of_not_mem (by simp), List.dedup_nil]
    have hd : (["A", "B"] : List String).dedup = ["A", "B"] := by
      have hnm : ("A" : String) ∉ (["B"] : List String).dedup := by
        rw [hd0]
        simp
      rw [@List.dedup_cons_of_not_mem String _ "A" ["B"] hnm, hd0]
    have e1 : (("A" : String) == "B") = false := by decide
    have e2 : (("B" : String) == "A") = false := by decide
    have e3 : (("A" : String) == "A") = true := by decide
    have e4 : (("B" : String) == "B") = true := by decide
    have n1 : ("A" : String) ≠ "B" := by decide
    have n2 : ("B" : String) ≠ "A" := by decide
    have h2 : avg_series_wape cv_two_series "M" = 1 / 2 := by
      norm_num [avg_series_wape, cv_two_series, maskRows, getPred, rowActual, rowPred, hd,
        List.filter_cons, List.filter_nil, e1, e2, e3, e4, n1, n2]
    rw [h1, h2]
    simp only [ne_eq, FVal.fin.injEq]
    norm_num

/-- C2 witness: the theorem instantiated on the concrete two-series frame. -/
theorem C2_witness :
    ("M" ∈ cv_two_series.modelCols) ∧ (maskRows cv_two_series "M" ≠ []) ∧
    ((("M", { wape := spec_global_wape cv_two_series "M",
              capacity_breach_rate := if false then some 0 else none }) ∈
        calculate_metrics cv_two_series false) ∧
     (∀ e, ("M", e) ∈ calculate_metrics cv_two_series false →
        e.wape = spec_global_wape cv_two_series "M") ∧
     modelWape cv_two_series "M" ≠ FVal.fin (avg_series_wape cv_two_series "M")) :=
  ⟨by decide, by decide,
   C2_wape_global_ratio cv_two_series false "M" (by decide) (by decide)⟩

/-- C3: the code hardcodes the capacity breach rate to the placeholder 0
whenever capacity data is present, even on a frame with a missed breach
(actual 150 above capacity 100, predicted upper quantile 90 below it) where
the fraction described by the spec is 1; when capacity is absent the key is
omitted rather than reported as zero. -/
theorem C3_breach_rate_placeholder :
    calculate_metrics cv_missed_breach true =
      [("AutoARIMA", { wape := FVal.fin (2 / 5), capacity_breach_rate := some 0 })] ∧
    calculate_metrics cv_missed_breach false =
      [("AutoARIMA", { wape := FVal.fin (2 / 5), capacity_breach_rate := none })] := by
  constructor <;>
    norm_num [calculate_metrics, cv_missed_breach, modelWape, maskRows, getPred,
      rowActual, rowPred, floatDiv, List.countP, List.countP.go, List.filterMap]

/-- C4: every series with fewer than 30 observations is dropped by
prepare_data before the cross-validation call and is absent from the
prepared frame, from the cross-validation tuples that feed the scores, and
from the generated forecasts, for any external library call that only
returns series it was given. -/
theorem C4_short_series_dropped (df clean : List Row)
    (hprep : prepare_data df = Except.ok clean)
    (sid : String) (hshort : countSeries df sid < 30) :
    (∀ r ∈ clean, r.series_id ≠ sid) ∧
    (∀ (cvO : List Row → List String → CVResults) (models : List String),
      (∀ input ms r, r ∈ (cvO input ms).rows → r.unique_id ∈ input.map Row.series_id) →
      ∀ r ∈ (cvO clean (select_models models)).rows, r.unique_id ≠ sid) ∧
    (∀ (sfO : List Row → List String → Forecasts) (models : List String) (fc : Forecasts),
      (∀ input ms r, r ∈ (sfO input ms).rows → r.unique_id ∈ input.map Row.series_id) →
      generate_forecast sfO df models = Except.ok fc →
      ∀ r ∈ fc.rows, r.unique_id ≠ sid) := by
  have hmain : ∀ r ∈ clean, r.series_id ≠ sid := by
    intro r hr heq
    have hc := prepare_data_mem_count hprep r hr
    rw [heq] at hc
    omega
  refine ⟨hmain, ?_, ?_⟩
  · intro cvO models hcont r hr heq
    have hmem := hcont clean (select_models models) r hr
    rw [heq] at hmem
    obtain ⟨r2, hr2, hr2e⟩ := List.mem_map.1 hmem
    exact hmain r2 hr2 hr2e
  · intro sfO models fc hcont hgen r hr heq
    have hfc : fc = sfO clean (select_models models) := by
      unfold generate_forecast at hgen
      rw [hprep] at hgen
      simpa using hgen.symm
    subst hfc
    have hmem := hcont clean (select_models models) r hr
    rw [heq] at hmem
    obtain ⟨r2, hr2, hr2e⟩ := List.mem_map.1 hmem
    exact hmain r2 hr2 hr2e

/-- C4 witness: the theorem instantiated on df_mixed, whose series B has a
single observation, with an external call returning no rows. -/
theorem C4_witness :
    prepare_data df_mixed = Except.ok clean_mixed ∧
    countSeries df_mixed "B" < 30 ∧
    ((∀ r ∈ clean_mixed, r.series_id ≠ "B") ∧
     (∀ (cvO : List Row → List String → CVResults) (models : List String),
       (∀ input ms r, r ∈ (cvO input ms).rows → r.unique_id ∈ input.map Row.series_id) →
       ∀ r ∈ (cvO clean_mixed (select_models models)).rows, r.unique_id ≠ "B") ∧
     (∀ (sfO : List Row → List String → Forecasts) (models : List String) (fc : Forecasts),
       (∀ input ms r, r ∈ (sfO input ms).rows → r.unique_id ∈ input.map Row.series_id) →
       generate_forecast sfO df_mixed models = Except.ok fc →
       ∀ r ∈ fc.rows, r.unique_id ≠ "B")) :=
  ⟨by decide, by decide,
   C4_short_series_dropped df_mixed clean_mixed (by decide) "B" (by decide)⟩

/-- C5 (counterexample): a forecast upper-90 of 120 for a series whose
capacity is 200: under the per-series threshold of the claim no alert is
due, yet the code emits one alert because it compares against its scalar
threshold argument (here 100) and never reads the capacity frame. -/
theorem C5_counterexample :
    (check_capacity_alerts forecasts_120 capacity_200 100).length = 1 ∧
    (spec_check_alerts forecasts_120 capacity_200).length = 0 ∧
    check_capacity_alerts forecasts_120 capacity_200 100 ≠
      spec_check_alerts forecasts_120 capacity_200 := by
  exact ⟨by decide, by decide, by decide⟩

/-- C5 (amended): check_capacity_alerts emits exactly one alert for every
forecast row whose AutoARIMA-hi-90 value strictly exceeds the scalar
threshold argument and no other events (none at all when that column is
absent); the per-series capacity frame is ignored; a forecast upper-90 of
120 against the scalar threshold 100 yields exactly one alert. -/
theorem C5_amended_alerts (f : Forecasts) (cap cap2 : List (String × ℚ)) (t : ℚ) :
    check_capacity_alerts f cap t =
      (if "AutoARIMA-hi-90" ∈ f.cols then
        (f.rows.filter (fun r => t < getColVal r "AutoARIMA-hi-90")).map
          (fun row => { series_id := row.unique_id, date := row.ds,
                        predicted_demand := getColVal row "AutoARIMA-hi-90",
                        threshold := t })
       else []) ∧
    check_capacity_alerts f cap t = check_capacity_alerts f cap2 t ∧
    check_capacity_alerts forecasts_120 capacity_200 100 =
      [{ series_id := "A", date := 0, predicted_demand := 120, threshold := 100 }] := by
  refine ⟨?_, rfl, by decide⟩
  simp only [check_capacity_alerts]
  by_cases h : "AutoARIMA-hi-90" ∈ f.cols
  · rw [if_pos h, if_pos h, foldl_append_map]
    simp
  · rw [if_neg h, if_neg h]

/-- C6: a model column with zero valid (actual, predicted) pairs is left
out of the metrics dict entirely rather than scored; the backtest endpoint
fails with the no-valid-series error exactly when the prepared frame is
empty and with the no-scorable-model error exactly when the metrics dict
came out empty, and these are its only error outcomes: no single model,
series or fold failure is fatal. -/
theorem C6_failure_semantics :
    (∀ (cv : CVResults) (hc : Bool) (m : String), maskRows cv m = [] →
      ∀ e : ModelMetrics, (m, e) ∉ calculate_metrics cv hc) ∧
    (∀ (cvO : List Row → List String → CVResults) (df : List Row) (hc : Bool)
       (models : List String) (clean : List Row),
      prepare_data df = Except.ok clean →
      ((backtest_endpoint cvO df hc models = Except.error BacktestError.noValidSeries ↔
          clean = []) ∧
       (backtest_endpoint cvO df hc models = Except.error BacktestError.noScorableModel ↔
          clean ≠ [] ∧
          calculate_metrics (cvO clean (select_models models)) hc = []) ∧
       (∀ er, backtest_endpoint cvO df hc models = Except.error er →
          er = BacktestError.noValidSeries ∨ er = BacktestError.noScorableModel))) := by
  constructor
  · intro cv hc m hmask e hmem
    exact (((calculate_metrics_mem cv hc m e).1 hmem).2.1) hmask
  · intro cvO df hc models clean hprep
    have hrb : run_backtest cvO df hc models =
        (if clean.length = 0 then Except.error BacktestError.noValidSeries
         else Except.ok (calculate_metrics (cvO clean (select_models models)) hc)) := by
      unfold run_backtest
      rw [hprep]
    by_cases hcl : clean = []
    · subst hcl
      have hend : backtest_endpoint cvO df hc models =
          Except.error BacktestError.noValidSeries := by
        unfold backtest_endpoint
        rw [hrb]
        simp
      refine ⟨by simp [hend], by simp [hend], ?_⟩
      intro er her
      rw [hend] at her
      injection her with h
      exact Or.inl h.symm
    · have hlen : clean.length ≠ 0 := fun h => hcl (List.length_eq_zero.1 h)
      cases hMc : calculate_metrics (cvO clean (select_models models)) hc with
      | nil =>
        have hend : backtest_endpoint cvO df hc models =
            Except.error BacktestError.noScorableModel := by
          unfold backtest_endpoint
          rw [hrb, if_neg hlen, hMc]
          rfl
        refine ⟨by simp [hend, hcl], by simp [hend, hcl, hMc], ?_⟩
        intro er her
        rw [hend] at her
        injection her with h
        exact Or.inr h.symm
      | cons b bs =>
        have hend : backtest_endpoint cvO df hc models =
            Except.ok (bs.foldl
              (fun best y => if (y.2.wape).lt (best.2.wape) then y else best) b) := by
          unfold backtest_endpoint
          rw [hrb, if_neg hlen, hMc]
          rfl
        refine ⟨by simp [hend, hcl], by simp [hend, hMc], ?_⟩
        intro er her
        rw [hend] at her
        cases her

/-- C6 witness: the theorem instantiated on df_mixed with an external
cross-validation returning an empty frame, so the metrics dict is empty and
the endpoint fails with the no-scorable-model error. -/
theorem C6_witness :
    prepare_data df_mixed = Except.ok clean_mixed ∧
    (backtest_endpoint (fun (_ : List Row) (_ : List String) => ({ modelCols := [], rows := [] } : CVResults)) df_mixed false
        ["AutoARIMA"] = Except.error BacktestError.noScorableModel ↔
      clean_mixed ≠ [] ∧
      calculate_metrics
        ((fun (_ : List Row) (_ : List String) => ({ modelCols := [], rows := [] } : CVResults)) clean_mixed
          (select_models ["AutoARIMA"])) false = []) :=
  ⟨by decide,
   ((C6_failure_semantics.2 (fun (_ : List Row) (_ : List String) => ({ modelCols := [], rows := [] } : CVResults)) df_mixed false
      ["AutoARIMA"] clean_mixed (by decide)).2).1⟩

/-- C7: modelled from the spec (the fold generation lives in the external
StatsForecast.cross_validation call): the cutoffs are L - H - k*S for
k < N, keeping exactly those leaving at least the minimum training length
(skipping, never erroring), and for a series of length 40 with horizon 14,
3 folds and step 7 the cutoffs are the positions L-14, L-21, L-28, each
fold training on all history before its cutoff and testing on the next 14
points. -/
theorem C7_fold_cutoffs (series : List ℚ) (mt : Nat)
    (h40 : series.length = 40) (hmt : mt ≤ 12) :
    fold_cutoffs series.length 14 7 3 mt = [26, 19, 12] ∧
    (make_folds series 14 7 3 mt).map (fun f => f.1.length) = [26, 19, 12] ∧
    (make_folds series 14 7 3 mt).map (fun f => f.2.length) = [14, 14, 14] ∧
    (∀ f ∈ make_folds series 14 7 3 mt, f.1 ++ f.2 = series.take (f.1.length + 14)) ∧
    (∀ (L H S N mtg : Nat) (c : Int),
      c ∈ fold_cutoffs L H S N mtg ↔
        ∃ k, k < N ∧ c = (L : Int) - (H : Int) - (k : Int) * (S : Int) ∧ (mtg : Int) ≤ c) := by
  have h26 : (mt : Int) ≤ 26 := by omega
  have h19 : (mt : Int) ≤ 19 := by omega
  have h12 : (mt : Int) ≤ 12 := by omega
  have hrange : List.range 3 = [0, 1, 2] := by decide
  have hc : fold_cutoffs 40 14 7 3 mt = [26, 19, 12] := by
    unfold fold_cutoffs
    rw [hrange]
    norm_num [List.filter_cons, h26, h19, h12]
  have hmf : make_folds series 14 7 3 mt =
      [(series.take 26, (series.drop 26).take 14),
       (series.take 19, (series.drop 19).take 14),
       (series.take 12, (series.drop 12).take 14)] := by
    unfold make_folds
    rw [h40, hc]
    norm_num
    exact ⟨⟨rfl, rfl⟩, ⟨rfl, rfl⟩, rfl, rfl⟩
  refine ⟨by rw [h40]; exact hc, ?_, ?_, ?_, ?_⟩
  · rw [hmf]
    simp [List.length_take, h40]
  · rw [hmf]
    simp [List.length_take, List.length_drop, h40]
  · rw [hmf]
    intro f hf
    simp only [List.mem_cons, List.not_mem_nil, or_false] at hf
    rcases hf with rfl | rfl | rfl
    · simp only [List.length_take, h40]
      norm_num
      exact (List.take_add series 26 14).symm
    · simp only [List.length_take, h40]
      norm_num
      exact (List.take_add series 19 14).symm
    · simp only [List.length_take, h40]
      norm_num
      exact (List.take_add series 12 14).symm
  · intro L H S N mtg c
    unfold fold_cutoffs
    constructor
    · intro hmem
      have hsplit := List.mem_filter.1 hmem
      obtain ⟨k, hk, he⟩ :=
        (@List.mem_map Nat Int c
          (fun (k : Nat) => (L : Int) - (H : Int) - (k : Int) * (S : Int))
          (List.range N)).1 hsplit.1
      exact ⟨k, List.mem_range.1 hk, he.symm, by simpa using hsplit.2⟩
    · rintro ⟨k, hk, he, hle⟩
      apply List.mem_filter.2
      constructor
      · exact (@List.mem_map Nat Int c
          (fun (k : Nat) => (L : Int) - (H : Int) - (k : Int) * (S : Int))
          (List.range N)).2 ⟨k, List.mem_range.2 hk, he.symm⟩
      · simpa using hle

/-- C7 witness: the theorem instantiated on a concrete series of length 40
with minimum training length 7. -/
theorem C7_witness :
    (List.replicate 40 (0 : ℚ)).length = 40 ∧ 7 ≤ 12 ∧
    (fold_cutoffs (List.replicate 40 (0 : ℚ)).length 14 7 3 7 = [26, 19, 12] ∧
     (make_folds (List.replicate 40 (0 : ℚ)) 14 7 3 7).map (fun f => f.1.length) =
       [26, 19, 12] ∧
     (make_folds (List.replicate 40 (0 : ℚ)) 14 7 3 7).map (fun f => f.2.length) =
       [14, 14, 14] ∧
     (∀ f ∈ make_folds (List.replicate 40 (0 : ℚ)) 14 7 3 7,
       f.1 ++ f.2 = (List.replicate 40 (0 : ℚ)).take (f.1.length + 14)) ∧
     (∀ (L H S N mtg : Nat) (c : Int),
       c ∈ fold_cutoffs L H S N mtg ↔
         ∃ k, k < N ∧ c = (L : Int) - (H : Int) - (k : Int) * (S : Int) ∧ (mtg : Int) ≤ c)) :=
  ⟨by simp, by decide, C7_fold_cutoffs (List.replicate 40 0) 7 (by simp) (by decide)⟩

/-- C9 (counterexample): validate_data assigns the parsed timestamp column
back into the frame the caller passed in, so on a frame with a parseable
raw timestamp the caller frame after the call differs from the input. -/
theorem C9_counterexample : (validate_data df_raw_ts).2 ≠ df_raw_ts := by decide

/-- C9 (amended): prepare_data copies the frame and leaves the caller frame
unchanged; validate_data changes the caller frame at most in the timestamp
column, replacing each cell by its parsed value when the whole column
parses, and leaving the frame untouched otherwise. -/
theorem C9_amended_frame_effects (df : List Row) :
    prepare_data_caller df = df ∧
    List.Forall₂ (fun r r2 => r2.series_id = r.series_id ∧ r2.y = r.y ∧
      r2.capacity = r.capacity ∧
      (r2.timestamp = r.timestamp ∨ parseTS r.timestamp = some r2.timestamp))
      df (validate_data df).2 := by
  refine ⟨rfl, ?_⟩
  cases hp : parseAllTimestamps df with
  | some df2 =>
    have h2 : (validate_data df).2 = df2 := by
      unfold validate_data
      rw [hp]
    rw [h2]
    exact (parseAll_forall2 hp).imp
      (fun a b hab => ⟨hab.1, hab.2.1, hab.2.2.1, Or.inr hab.2.2.2⟩)
  | none =>
    have h2 : (validate_data df).2 = df := by
      unfold validate_data
      rw [hp]
    rw [h2]
    rw [List.forall₂_same]
    intro x _
    exact ⟨rfl, rfl, rfl, Or.inl rfl⟩

/-- C10: backtesting and forecast generation evaluate exactly the requested
names present in the fixed registry, in request order; an unknown name is
silently skipped with no error, and a request containing only unknown names
proceeds to the cross-validation stage with zero candidate models instead
of being rejected up front. -/
theorem C10_registry_skip :
    (∀ names : List String, select_models names =
      names.filter (fun m => decide (m ∈ (["AutoARIMA", "ETS", "Theta"] : List String)))) ∧
    (∀ (cvO : List Row → List String → CVResults) (df : List Row) (hc : Bool)
       (names : List String) (clean : List Row),
      prepare_data df = Except.ok clean → clean ≠ [] →
      (∀ n ∈ names, n ∉ (["AutoARIMA", "ETS", "Theta"] : List String)) →
      run_backtest cvO df hc names =
        Except.ok (calculate_metrics (cvO clean []) hc)) := by
  refine ⟨select_models_eq_filter, ?_⟩
  intro cvO df hc names clean hprep hne hunk
  have hsel : select_models names = [] := by
    rw [select_models_eq_filter]
    apply List.filter_eq_nil_iff.2
    intro a ha
    simpa using hunk a ha
  have hlen : clean.length ≠ 0 := fun h => hne (List.length_eq_zero.1 h)
  unfold run_backtest
  rw [hprep, hsel]
  simp [hlen]

/-- C10 witness: a request consisting of the single unknown name
GradientBoost proceeds on df_mixed with zero candidate models. -/
theorem C10_witness :
    prepare_data df_mixed = Except.ok clean_mixed ∧ clean_mixed ≠ [] ∧
    (∀ n ∈ (["GradientBoost"] : List String),
      n ∉ (["AutoARIMA", "ETS", "Theta"] : List String)) ∧
    run_backtest (fun (_ : List Row) (_ : List String) => ({ modelCols := [], rows := [] } : CVResults)) df_mixed false
        ["GradientBoost"] =
      Except.ok (calculate_metrics
        ((fun (_ : List Row) (_ : List String) => ({ modelCols := [], rows := [] } : CVResults)) clean_mixed []) false) :=
  ⟨by decide, by decide, by decide,
   C10_registry_skip.2 (fun (_ : List Row) (_ : List String) => ({ modelCols := [], rows := [] } : CVResults)) df_mixed false
     ["GradientBoost"] clean_mixed (by decide) (by decide) (by decide)⟩

/-- C1 (counterexample): two models with equal WAPE and equal computed
breach rate: the min over the metrics dict picks Theta, the entry first in
insertion order, while the tie-break of the spec picks AutoARIMA, the
lexicographically smallest identifier. -/
theorem C1_counterexample :
    pyMinBy (fun x => x.2.wape) metrics_tie =
      some ("Theta", { wape := FVal.fin 1, capacity_breach_rate := some 0 }) ∧
    spec_select metrics_tie =
      some ("AutoARIMA", { wape := FVal.fin 1, capacity_breach_rate := some 0 }) ∧
    strLt "AutoARIMA" "Theta" = true :=
  ⟨by decide, by decide, by decide⟩

/-- C1 (amended): winner selection is the Python min over the metrics dict
keyed by WAPE: it returns the first entry attaining the minimum WAPE, so
minimum WAPE wins and a tie is broken by insertion order of the metrics
mapping (the model column order), not by breach rate or lexicographic
order; the choice is a function of the ordered metrics list, hence the same
on every run for identical ordered inputs. -/
theorem C1_amended_selection (metrics : List (String × ModelMetrics))
    (hne : metrics ≠ [])
    (hfin : ∀ x ∈ metrics, ∃ c, x.2.wape = FVal.fin c) :
    ∃ b, pyMinBy (fun x => x.2.wape) metrics = some b ∧
      ∃ l1 l2, metrics = l1 ++ b :: l2 ∧
        (∀ z ∈ metrics, FVal.toQ b.2.wape ≤ FVal.toQ z.2.wape) ∧
        (∀ z ∈ l1, FVal.toQ b.2.wape < FVal.toQ z.2.wape) := by
  cases hm : metrics with
  | nil => exact absurd hm hne
  | cons x xs =>
    subst hm
    obtain ⟨r, l1, l2, hr, hdec, hstrict, hbound⟩ :=
      pyFold_first_min (fun p => p.2.wape) xs x hfin
    refine ⟨r, ?_, l1, l2, hdec, hbound, hstrict⟩
    simp only [pyMinBy]
    rw [hr]

/-- C1 witness: the amended selection theorem instantiated on the concrete
tied metrics list. -/
theorem C1_witness :
    metrics_tie ≠ [] ∧
    (∃ b, pyMinBy (fun x => x.2.wape) metrics_tie = some b ∧
      ∃ l1 l2, metrics_tie = l1 ++ b :: l2 ∧
        (∀ z ∈ metrics_tie, FVal.toQ b.2.wape ≤ FVal.toQ z.2.wape) ∧
        (∀ z ∈ l1, FVal.toQ b.2.wape < FVal.toQ z.2.wape)) :=
  ⟨by decide,
   C1_amended_selection metrics_tie (by decide) (by
    intro x hx
    have hx2 : x ∈ metrics_tie := hx
    simp only [metrics_tie, List.mem_cons, List.not_mem_nil, or_false] at hx2
    rcases hx2 with rfl | rfl
    · exact ⟨1, rfl⟩
    · exact ⟨1, rfl⟩)⟩

/-- C8 (counterexample): one scored tuple with actual 0 and predicted 0:
every scored prediction equals its actual, yet the computed WAPE is the
float NaN (the division 0 / 0), which is neither 0 nor nonnegative under
float comparison, contradicting the claim as stated. -/
theorem C8_counterexample :
    (∀ r ∈ maskRows cv_zero_pair "M", rowPred r "M" = rowActual r) ∧
    modelWape cv_zero_pair "M" = FVal.nan ∧
    modelWape cv_zero_pair "M" ≠ FVal.fin 0 ∧
    ¬ (modelWape cv_zero_pair "M").nonneg := by
  have h : modelWape cv_zero_pair "M" = FVal.nan := by
    norm_num [modelWape, cv_zero_pair, maskRows, getPred, rowActual, rowPred, floatDiv]
  refine ⟨by decide, h, ?_, ?_⟩
  · rw [h]
    decide
  · rw [h]
    simp [FVal.nonneg]

/-- C8 (amended): for every model with at least one scored pair whose
scored actuals are not all zero, the computed WAPE is a finite nonnegative
rational, and it is zero exactly when every scored prediction equals its
actual; when all scored actuals are zero the division degenerates to NaN or
infinity, the case the counterexample exhibits. -/
theorem C8_amended_wape (cv : CVResults) (m : String)
    (hden : ((maskRows cv m).map (fun r => |rowActual r|)).sum ≠ 0) :
    ∃ q, modelWape cv m = FVal.fin q ∧ 0 ≤ q ∧
      (q = 0 ↔ ∀ r ∈ maskRows cv m, rowPred r m = rowActual r) := by
  have hnum0 : ∀ r ∈ maskRows cv m, 0 ≤ |rowActual r - rowPred r m| :=
    fun r _ => abs_nonneg _
  have hden0 : ∀ r ∈ maskRows cv m, 0 ≤ |rowActual r| := fun r _ => abs_nonneg _
  have hdpos : 0 < ((maskRows cv m).map (fun r => |rowActual r|)).sum :=
    lt_of_le_of_ne (sum_map_nonneg _ _ hden0) (Ne.symm hden)
  refine ⟨((maskRows cv m).map (fun r => |rowActual r - rowPred r m|)).sum /
      ((maskRows cv m).map (fun r => |rowActual r|)).sum, ?_, ?_, ?_⟩
  · simp only [modelWape, floatDiv, if_neg hden]
  · exact div_nonneg (sum_map_nonneg _ _ hnum0) (le_of_lt hdpos)
  · rw [div_eq_zero_iff]
    constructor
    · rintro (h0 | h0)
      · intro r hr
        have hz := (sum_map_eq_zero_iff _ _ hnum0).1 h0 r hr
        have hz2 := abs_eq_zero.1 hz
        have hz3 := sub_eq_zero.1 hz2
        exact hz3.symm
      · exact absurd h0 hden
    · intro hall
      left
      apply (sum_map_eq_zero_iff _ _ hnum0).2
      intro r hr
      rw [hall r hr, sub_self, abs_zero]

/-- C8 witness: the amended theorem instantiated on the two-series frame,
whose scored actuals sum to 11 in absolute value. -/
theorem C8_witness :
    ((maskRows cv_two_series "M").map (fun r => |rowActual r|)).sum ≠ 0 ∧
    (∃ q, modelWape cv_two_series "M" = FVal.fin q ∧ 0 ≤ q ∧
      (q = 0 ↔ ∀ r ∈ maskRows cv_two_series "M", rowPred r "M" = rowActual r)) := by
  have hd : ((maskRows cv_two_series "M").map (fun r => |rowActual r|)).sum ≠ 0 := by
    norm_num [maskRows, cv_two_series, getPred, rowActual]
  exact ⟨hd, C8_amended_wape cv_two_series "M" hd⟩
